import Mathlib

/-!
Shallow embedding of the ConstDB object model and command engine
(src/object.rs, src/cmd.rs).  Byte strings are lists of naturals; the
Rust u64 timestamps are Nat (the code only compares and maxes them, so
no overflow arithmetic is involved); fallible code returns Except.

The Counter / LWW-Set / LWW-Dict CRDT internals (src/type_counter.rs,
src/crdt/lwwhash.rs) and the Server plumbing (src/server.rs) are not
among the given sources; those definitions are modelled from the spec
and are marked as such in their doc comments.  Everything else is
translated directly from the Rust sources.
-/

namespace ConstDB

/-- Byte strings (Rust `Bytes`) are modelled as lists of naturals. -/
abbrev Bytes := List Nat

/-- Modelled from the spec: the Counter CRDT of src/type_counter.rs is not
among the given sources.  The spec describes it as a mapping
`node_id → (value, uuid)`; the logical value is the sum over all entries. -/
structure Counter where
  entries : List (Nat × Int × Nat)
deriving DecidableEq

/-- Logical value of a counter: sum of the per-node values. -/
def Counter.get (c : Counter) : Int :=
  (c.entries.map (fun e => e.2.1)).sum

/-- Lookup of the `(value, uuid)` pair stored for a node, if any. -/
def Counter.entry_for (c : Counter) (node : Nat) : Option (Int × Nat) :=
  (c.entries.find? (fun e => e.1 == node)).map (fun e => e.2)

/-- Modelled from the spec: `change(node_id, delta, uuid)` sets
`entry[node_id] = (existing_value + delta, uuid)` if `uuid` exceeds the
uuid already stored, and is a no-op otherwise; an absent node counts
as `(0, 0)`. -/
def Counter.change (c : Counter) (node : Nat) (delta : Int) (uuid : Nat) : Counter :=
  match c.entry_for node with
  | none => ⟨(node, delta, uuid) :: c.entries⟩
  | some (v, u) =>
    if uuid > u then
      ⟨c.entries.map (fun e => if e.1 == node then (node, v + delta, uuid) else e)⟩
    else c

/-- Modelled from the spec: counter merge keeps, per node, the pair with
the greater uuid. -/
def Counter.merge (c oc : Counter) : Counter :=
  ⟨(c.entries.map (fun e =>
      match oc.entry_for e.1 with
      | some (v, u) => if u > e.2.2 then (e.1, v, u) else e
      | none => e)) ++
    oc.entries.filter (fun e => (c.entry_for e.1).isNone)⟩

/-- Modelled from the spec: the LWW-set of src/crdt/lwwhash.rs is not among
the given sources.  It maps each member to an `(add_ts, remove_ts)` pair. -/
structure Set where
  entries : List (Bytes × Nat × Nat)
deriving DecidableEq

/-- Lookup of the `(add_ts, remove_ts)` pair stored for a member, if any. -/
def Set.ts_for (s : Set) (m : Bytes) : Option (Nat × Nat) :=
  (s.entries.find? (fun e => e.1 == m)).map (fun e => e.2)

/-- All members with their timestamp pairs. -/
def Set.iter_all (s : Set) : List (Bytes × Nat × Nat) := s.entries

/-- Modelled from the spec: removing members sets each of their
`remove_ts` to the max with `uuid`. -/
def Set.remove_members (s : Set) (members : List Bytes) (uuid : Nat) : Set :=
  ⟨s.entries.map (fun e =>
    if members.contains e.1 then (e.1, e.2.1, max e.2.2 uuid) else e)⟩

/-- Modelled from the spec: set merge takes, per member, the max of each
timestamp. -/
def Set.merge (s os : Set) : Set :=
  ⟨(s.entries.map (fun e =>
      match os.ts_for e.1 with
      | some (a, r) => (e.1, max e.2.1 a, max e.2.2 r)
      | none => e)) ++
    os.entries.filter (fun e => (s.ts_for e.1).isNone)⟩

/-- Modelled from the spec: the LWW-dict of src/crdt/lwwhash.rs is not among
the given sources.  It maps each field to `(value, add_ts, remove_ts)`. -/
structure Dict where
  entries : List (Bytes × Bytes × Nat × Nat)
deriving DecidableEq

/-- Lookup of the `(value, add_ts, remove_ts)` triple for a field, if any. -/
def Dict.entry_for (d : Dict) (f : Bytes) : Option (Bytes × Nat × Nat) :=
  (d.entries.find? (fun e => e.1 == f)).map (fun e => e.2)

/-- All fields with their value and timestamps. -/
def Dict.iter_all (d : Dict) : List (Bytes × Bytes × Nat × Nat) := d.entries

/-- Modelled from the spec: deleting fields sets each of their `remove_ts`
to the max with `uuid`. -/
def Dict.del_fields (d : Dict) (fields : List Bytes) (uuid : Nat) : Dict :=
  ⟨d.entries.map (fun e =>
    if fields.contains e.1 then (e.1, e.2.1, e.2.2.1, max e.2.2.2 uuid) else e)⟩

/-- Modelled from the spec: dict merge takes, per field, the `(value, add_ts)`
with the larger `add_ts` and the max of the `remove_ts`. -/
def Dict.merge (d od : Dict) : Dict :=
  ⟨(d.entries.map (fun e =>
      match od.entry_for e.1 with
      | some (v, a, r) =>
        if a > e.2.2.1 then (e.1, v, a, max e.2.2.2 r)
        else (e.1, e.2.1, e.2.2.1, max e.2.2.2 r)
      | none => e)) ++
    od.entries.filter (fun e => (d.entry_for e.1).isNone)⟩

/-- Wire message kinds (src/resp.rs interface, per spec section 6). -/
inductive Message where
  | Integer : Int → Message
  | String : Bytes → Message
  | BulkString : Bytes → Message
  | Array : List Message → Message
  | Error : Bytes → Message
  | Nil : Message
  | None : Message

/-- Error taxonomy (spec section 7 / src error enum). -/
inductive CstError where
  | UnknownCmd : String → CstError
  | UnknownSubCmd : String → String → CstError
  | WrongArity : CstError
  | InvalidRequestMsg : String → CstError
  | InvalidType : CstError
  | TypeConflict : CstError
deriving DecidableEq

/-- The four CRDT variants an object can hold (enum Encoding, src/object.rs). -/
inductive Encoding where
  | Counter : Counter → Encoding
  | Bytes : Bytes → Encoding
  | LWWSet : Set → Encoding
  | LWWDict : Dict → Encoding
deriving DecidableEq

/-- Object envelope (struct Object, src/object.rs): three timestamps plus
the CRDT value. -/
structure Object where
  create_time : Nat
  update_time : Nat
  delete_time : Nat
  enc : Encoding
deriving DecidableEq

/-- Object::new (src/object.rs lines 25-32): create_time := ct,
update_time := 0, delete_time := dt. -/
def Object.new (enc : Encoding) (ct dt : Nat) : Object :=
  { create_time := ct, update_time := 0, delete_time := dt, enc := enc }

/-- Object::updated_at (src/object.rs lines 34-48): raise update_time to
uuid if below it; when tombstoned and uuid is at least delete_time, set
create_time := uuid (the two earlier branches of the inner if are empty
in the source). -/
def Object.updated_at (o : Object) (uuid : Nat) : Object :=
  let o1 := if o.update_time < uuid then { o with update_time := uuid } else o
  if o1.create_time < o1.delete_time then
    if uuid < o1.create_time then o1
    else if o1.create_time ≤ uuid ∧ uuid < o1.delete_time then o1
    else { o1 with create_time := uuid }
  else o1

/-- Object::alive (src/object.rs lines 50-53): create_time >= delete_time. -/
def Object.alive (o : Object) : Bool :=
  o.create_time ≥ o.delete_time

/-- Object::merge (src/object.rs lines 63-83).  Rust mutates self and
returns Result<(),()>; here the merged object is returned, with `none`
for the mismatched-encoding error.  Note that only the Bytes arm touches
the envelope timestamps in the source. -/
def Object.merge (self other : Object) : Option Object :=
  let my_ct := self.create_time
  let my_dt := self.delete_time
  let his_ct := other.create_time
  let his_dt := other.delete_time
  let my_ut := self.update_time
  let his_ut := other.update_time
  match self.enc, other.enc with
  | Encoding.Counter c, Encoding.Counter oc =>
      some { self with enc := Encoding.Counter (c.merge oc) }
  | Encoding.Bytes b, Encoding.Bytes ob =>
      some { create_time := max my_ct his_ct,
             delete_time := max my_dt his_dt,
             update_time := max my_ut his_ut,
             enc := Encoding.Bytes (if my_ct < his_ct then ob else b) }
  | Encoding.LWWDict d, Encoding.LWWDict od =>
      some { self with enc := Encoding.LWWDict (d.merge od) }
  | Encoding.LWWSet s, Encoding.LWWSet os =>
      some { self with enc := Encoding.LWWSet (s.merge os) }
  | _, _ => none

/-- Modelled from the spec: the key store of src/server.rs is not among the
given sources.  The spec describes it as a mapping from key bytes to
objects; it is modelled as an association list. -/
def db_query (db : List (Bytes × Object)) (key : Bytes) : Option Object :=
  match db with
  | [] => none
  | kv :: rest => if kv.1 = key then some kv.2 else db_query rest key

/-- Modelled from the spec: inserting (or replacing) the object stored at a
key of the key store. -/
def db_add (db : List (Bytes × Object)) (key : Bytes) (o : Object) : List (Bytes × Object) :=
  match db with
  | [] => [(key, o)]
  | kv :: rest => if kv.1 = key then (key, o) :: rest else kv :: db_add rest key o

/-- Modelled from the spec: the Server of src/server.rs is not among the
given sources.  Only the pieces the command engine touches are kept: the
key store, the replication log of `(uuid, name, args)` records, the UUID
generator state, the node id and the processed-command counter. -/
structure Server where
  db : List (Bytes × Object)
  repl_log : List (Nat × String × List Message)
  next_id : Nat
  node_id : Nat
  cmd_processed : Nat

/-- Modelled from the spec: `next_uuid(is_write)` is strictly monotone and
never returns zero; the `is_write` flag only influences how far the hybrid
clock advances, which the claims do not depend on. -/
def Server.next_uuid (s : Server) (is_write : Bool) : Nat × Server :=
  (s.next_id + 1, { s with next_id := s.next_id + 1 })

/-- Modelled from the spec: `replicate_cmd` (src/server.rs) appends the
record `(uuid, name, args)` to the replication log; the log is modelled
with the newest record at the head. -/
def Server.replicate_cmd (s : Server) (uuid : Nat) (name : String) (args : List Message) : Server :=
  { s with repl_log := (uuid, name, args) :: s.repl_log }

/-- Decimal byte rendering of an integer (get_int_bytes, src/resp.rs
interface). -/
def get_int_bytes (i : Int) : Bytes :=
  (toString i).data.map Char.toNat

/-- OK reply (new_msg_ok, src/resp.rs interface): the string "OK". -/
def new_msg_ok : Message :=
  Message.String ((String.data "OK").map Char.toNat)

/-- NextArg::next_arg (src/cmd.rs lines 360-362): the next argument, or
WrongArity when the iterator is exhausted. -/
def next_arg (args : List Message) : Except CstError (Message × List Message) :=
  match args with
  | [] => Except.error CstError.WrongArity
  | x :: rest => Except.ok (x, rest)

/-- NextArg::next_bytes (src/cmd.rs lines 364-372): coerce the next
argument to bytes. -/
def next_bytes (args : List Message) : Except CstError (Bytes × List Message) :=
  match next_arg args with
  | Except.error e => Except.error e
  | Except.ok (m, rest) =>
    match m with
    | Message.Integer i => Except.ok (get_int_bytes i, rest)
    | Message.Error e => Except.ok (e, rest)
    | Message.String s => Except.ok (s, rest)
    | Message.BulkString b => Except.ok (b, rest)
    | _ => Except.error (CstError.InvalidRequestMsg "should be non-array type")

/-- Handlers take the server, the node id, the uuid and the argument list,
and return the reply (or error) together with the new server state.  The
`Option<&mut Client>` parameter of the Rust signature is omitted: every
handler embedded here ignores it. -/
abbrev CommandHandler := Server → Nat → Nat → List Message → Except CstError Message × Server

/-- get_command (src/cmd.rs lines 167-184). -/
def get_command : CommandHandler := fun server _nodeid _uuid args =>
  match next_bytes args with
  | Except.error e => (Except.error e, server)
  | Except.ok (key_name, _) =>
    match db_query server.db key_name with
    | some o =>
      if o.create_time < o.delete_time then (Except.ok Message.Nil, server)
      else
        match o.enc with
        | Encoding.Counter c => (Except.ok (Message.Integer c.get), server)
        | Encoding.Bytes b => (Except.ok (Message.BulkString b), server)
        | _ => (Except.error CstError.InvalidType, server)
    | none => (Except.ok Message.Nil, server)

/-- set_command (src/cmd.rs lines 186-209).  On a missing key a fresh
Bytes object is inserted first; the update is refused with Integer 0 when
the update_time of the object exceeds the uuid; a non-Bytes encoding is an
InvalidType error; otherwise the value is replaced and updated_at runs. -/
def set_command : CommandHandler := fun server _nodeid uuid args =>
  match next_bytes args with
  | Except.error e => (Except.error e, server)
  | Except.ok (key_name, rest) =>
    match next_bytes rest with
    | Except.error e => (Except.error e, server)
    | Except.ok (value, _) =>
      let inserted :=
        match db_query server.db key_name with
        | none => db_add server.db key_name (Object.new (Encoding.Bytes value) uuid 0)
        | some _ => server.db
      match db_query inserted key_name with
      | none => (Except.ok Message.Nil, server)  -- unreachable: the key was just inserted
      | some o =>
        if o.update_time > uuid then
          (Except.ok (Message.Integer 0), { server with db := inserted })
        else
          match o.enc with
          | Encoding.Bytes _ =>
            let o1 := Object.updated_at { o with enc := Encoding.Bytes value } uuid
            (Except.ok new_msg_ok, { server with db := db_add inserted key_name o1 })
          | _ => (Except.error CstError.InvalidType, { server with db := inserted })

/-- del_command (src/cmd.rs lines 221-296).  Counter/Bytes deletes are
refused when update_time exceeds the uuid; Set/Dict deletes tombstone all
live members/fields.  The handler itself pushes the per-type replication
records (del is flagged NO_REPLICATE). -/
def del_command : CommandHandler := fun server _nodeid uuid args =>
  match next_bytes args with
  | Except.error e => (Except.error e, server)
  | Except.ok (key_name, _) =>
    match db_query server.db key_name with
    | none => (Except.ok (Message.Integer 0), server)
    | some v =>
      match v.enc with
      | Encoding.Counter g =>
        if v.update_time ≤ uuid then
          if v.create_time < v.delete_time then
            (Except.ok (Message.Integer 0), server)
          else
            let d := g.entries.map (fun e => (e.1, e.2.1))
            let g1 := d.foldl (fun gg nv => Counter.change gg nv.1 (-nv.2) uuid) g
            let cmd_args := Message.BulkString key_name ::
              d.foldr (fun nv acc => Message.Integer nv.1 :: Message.Integer (-nv.2) :: acc) []
            let v1 := { v with delete_time := uuid, update_time := uuid,
                               enc := Encoding.Counter g1 }
            let server1 := { server with db := db_add server.db key_name v1 }
            (Except.ok (Message.Integer 1), server1.replicate_cmd uuid "delcnt" cmd_args)
        else (Except.ok (Message.Integer 0), server)
      | Encoding.Bytes _ =>
        if v.update_time ≤ uuid then
          if v.create_time < v.delete_time then
            (Except.ok (Message.Integer 0), server)
          else
            let v1 := { v with delete_time := uuid, update_time := uuid }
            let server1 := { server with db := db_add server.db key_name v1 }
            (Except.ok (Message.Integer 1),
             server1.replicate_cmd uuid "delbytes" [Message.BulkString key_name])
        else (Except.ok (Message.Integer 0), server)
      | Encoding.LWWSet s =>
        let members := s.iter_all.map (fun e => e.1)
        let s1 := s.remove_members members uuid
        let deleted : Int :=
          if v.create_time ≥ v.delete_time ∧ uuid > v.create_time then 1 else 0
        let v1 := { v with enc := Encoding.LWWSet s1,
                           delete_time := max v.delete_time uuid,
                           update_time := max v.update_time uuid }
        let server1 := { server with db := db_add server.db key_name v1 }
        (Except.ok (Message.Integer deleted),
         server1.replicate_cmd uuid "delset" [Message.BulkString key_name])
      | Encoding.LWWDict dd =>
        let fields := dd.iter_all.map (fun e => e.1)
        let d1 := dd.del_fields fields uuid
        let deleted : Int :=
          if v.create_time ≥ v.delete_time ∧ uuid > v.create_time then 1 else 0
        let v1 := { v with enc := Encoding.LWWDict d1,
                           delete_time := max v.delete_time uuid,
                           update_time := max v.update_time uuid }
        let server1 := { server with db := db_add server.db key_name v1 }
        (Except.ok (Message.Integer deleted),
         server1.replicate_cmd uuid "deldict" [Message.BulkString key_name])

/-- delbytes_command (src/cmd.rs lines 298-317).  A missing key gets a
fresh empty Bytes object with create_time = uuid; then delete_time and
update_time are raised to the max with uuid. -/
def delbytes_command : CommandHandler := fun server _nodeid uuid args =>
  match next_bytes args with
  | Except.error e => (Except.error e, server)
  | Except.ok (key_name, _) =>
    let inserted :=
      match db_query server.db key_name with
      | none => db_add server.db key_name (Object.new (Encoding.Bytes []) uuid 0)
      | some _ => server.db
    match db_query inserted key_name with
    | none => (Except.ok Message.Nil, server)  -- unreachable: the key was just inserted
    | some o =>
      match o.enc with
      | Encoding.Bytes _ =>
        let o1 := { o with delete_time := max o.delete_time uuid,
                           update_time := max o.update_time uuid }
        (Except.ok Message.None, { server with db := db_add inserted key_name o1 })
      | _ => (Except.error CstError.InvalidType, { server with db := inserted })

/-- Command record (struct Command, src/cmd.rs lines 68-72). -/
structure Command where
  name : String
  flags : Nat
  handler : CommandHandler

/-- A parsed command with its arguments (struct Cmd, src/cmd.rs lines 22-26). -/
structure Cmd where
  args : List Message
  command : Command

def COMMAND_READONLY : Nat := 1
def COMMAND_WRITE : Nat := 2
def COMMAND_CTRL : Nat := 4
def COMMAND_NO_REPLICATE : Nat := 8
def COMMAND_NO_REPLY : Nat := 16
def COMMAND_REPL_ONLY : Nat := 32

/-- The is_write computation of Cmd::exec (src/cmd.rs line 49).  In the
source it reads `self.command.flags | COMMAND_WRITE > 0`, and Rust parses
`|` tighter than `>`, so it is the bit-or compared against zero. -/
def exec_is_write (flags : Nat) : Bool :=
  flags ||| COMMAND_WRITE > 0

/-- Whether an Except result is an error (Result::is_err). -/
def is_err {ε α : Type} : Except ε α → Bool
  | Except.error _ => true
  | Except.ok _ => false

/-- Cmd::exec_detail (src/cmd.rs lines 56-63): run the handler; on success
with `repl` set, append `(uuid, name, args)` to the replication log. -/
def Cmd.exec_detail (self : Cmd) (server : Server) (nodeid uuid : Nat) (repl : Bool) :
    Except CstError Message × Server :=
  let r := self.command.handler server nodeid uuid self.args
  let server1 :=
    if is_err r.1 = false ∧ repl then r.2.replicate_cmd uuid self.command.name self.args
    else r.2
  (r.1, server1)

/-- Cmd::exec (src/cmd.rs lines 43-53): count the command, refuse
REPL_ONLY commands from clients with UnknownCmd, draw a uuid from the
generator and delegate to exec_detail with the replication decision
`WRITE set and NO_REPLICATE clear`. -/
def Cmd.exec (self : Cmd) (server : Server) : Except CstError Message × Server :=
  let server0 := { server with cmd_processed := server.cmd_processed + 1 }
  if self.command.flags &&& COMMAND_REPL_ONLY > 0 then
    (Except.error (CstError.UnknownCmd self.command.name), server0)
  else
    let p := server0.next_uuid (exec_is_write self.command.flags)
    let nodeid := p.2.node_id
    self.exec_detail p.2 nodeid p.1
      (decide (self.command.flags &&& COMMAND_WRITE > 0) &&
       decide (self.command.flags &&& COMMAND_NO_REPLICATE = 0))

/-- The flag assignments of the COMMANDS dispatch table
(src/cmd.rs lines 93-138); the handlers not embedded here are not part of
any claim, so only the flags column is modelled. -/
def COMMANDS_flags : String → Option Nat
  | "node" => some COMMAND_CTRL
  | "replicas" => some COMMAND_READONLY
  | "sync" => some COMMAND_CTRL
  | "meet" => some COMMAND_CTRL
  | "client" => some COMMAND_CTRL
  | "repllog" => some COMMAND_READONLY
  | "info" => some COMMAND_READONLY
  | "get" => some COMMAND_READONLY
  | "set" => some COMMAND_WRITE
  | "desc" => some COMMAND_READONLY
  | "del" => some (COMMAND_WRITE ||| COMMAND_NO_REPLICATE)
  | "delbytes" => some (COMMAND_WRITE ||| COMMAND_REPL_ONLY)
  | "incr" => some COMMAND_WRITE
  | "decr" => some COMMAND_WRITE
  | "delcnt" => some (COMMAND_WRITE ||| COMMAND_REPL_ONLY)
  | "sadd" => some COMMAND_WRITE
  | "srem" => some COMMAND_WRITE
  | "spop" => some COMMAND_WRITE
  | "smembers" => some COMMAND_READONLY
  | "delset" => some (COMMAND_WRITE ||| COMMAND_REPL_ONLY)
  | "hset" => some COMMAND_WRITE
  | "hget" => some COMMAND_READONLY
  | "hgetall" => some COMMAND_READONLY
  | "hdel" => some COMMAND_WRITE
  | "deldict" => some (COMMAND_WRITE ||| COMMAND_REPL_ONLY)
  | _ => none

/-- Predicate following the wording of the spec for the `get` reply shape: the
message is a BulkString or Nil. -/
def message_is_bulkstring_or_nil : Message → Bool
  | Message.BulkString _ => true
  | Message.Nil => true
  | _ => false

/-! ## Theorems -/

/-- Querying a key right after adding an object there yields that object. -/
theorem db_query_add (db : List (Bytes × Object)) (key : Bytes) (o : Object) :
    db_query (db_add db key o) key = some o := by
  induction db with
  | nil => simp [db_add, db_query]
  | cons kv rest ih =>
    by_cases h : kv.1 = key <;> simp [db_add, db_query, h, ih]

/-- updated_at never changes the stored CRDT value. -/
theorem updated_at_enc (o : Object) (uuid : Nat) :
    (o.updated_at uuid).enc = o.enc := by
  obtain ⟨ct, ut, dt, e⟩ := o
  simp only [Object.updated_at]
  split_ifs <;> rfl

/-- updated_at sets update_time to the max of the old value and uuid. -/
theorem updated_at_update_time (o : Object) (uuid : Nat) :
    (o.updated_at uuid).update_time = max o.update_time uuid := by
  obtain ⟨ct, ut, dt, e⟩ := o
  simp only [Object.updated_at]
  split_ifs <;> simp <;> omega

/-- C9: the is_write value computed by Cmd::exec is true for every flag
set, because the source bit-ors the flags with COMMAND_WRITE before
comparing against zero; in particular READONLY commands also draw a
write UUID. -/
theorem exec_is_write_always_true (flags : Nat) : exec_is_write flags = true := by
  have h2 : Nat.testBit (flags ||| COMMAND_WRITE) 1 = true := by
    rw [Nat.testBit_lor]
    have hw : Nat.testBit COMMAND_WRITE 1 = true := by decide
    simp [hw]
  have hne : flags ||| COMMAND_WRITE ≠ 0 := by
    intro h0
    rw [h0] at h2
    simp [Nat.zero_testBit] at h2
  simp [exec_is_write, Nat.pos_iff_ne_zero, hne]

/-- C4: updated_at raises update_time to the max with uuid (so to at
least uuid, never lowering it), never changes delete_time, sets
create_time := uuid exactly when the object is tombstoned and uuid is at
least delete_time (making it alive again), and leaves create_time
unchanged in every other case. -/
theorem updated_at_spec (o : Object) (uuid : Nat) :
    (o.updated_at uuid).update_time = max o.update_time uuid ∧
    (o.updated_at uuid).delete_time = o.delete_time ∧
    (o.create_time < o.delete_time → o.delete_time ≤ uuid →
      (o.updated_at uuid).create_time = uuid ∧ (o.updated_at uuid).alive = true) ∧
    (¬ (o.create_time < o.delete_time ∧ o.delete_time ≤ uuid) →
      (o.updated_at uuid).create_time = o.create_time) := by
  obtain ⟨ct, ut, dt, e⟩ := o
  simp only [Object.updated_at, Object.alive]
  split_ifs <;> simp_all <;> omega

/-- C4 witness: updated_at at a concrete tombstoned object and uuid. -/
theorem updated_at_spec_witness :
    (Object.updated_at ⟨1, 0, 5, Encoding.Bytes []⟩ 7).update_time = max 0 7 ∧
    (Object.updated_at ⟨1, 0, 5, Encoding.Bytes []⟩ 7).delete_time = 5 ∧
    ((1 : Nat) < 5 → (5 : Nat) ≤ 7 →
      (Object.updated_at ⟨1, 0, 5, Encoding.Bytes []⟩ 7).create_time = 7 ∧
      (Object.updated_at ⟨1, 0, 5, Encoding.Bytes []⟩ 7).alive = true) ∧
    (¬ ((1 : Nat) < 5 ∧ (5 : Nat) ≤ 7) →
      (Object.updated_at ⟨1, 0, 5, Encoding.Bytes []⟩ 7).create_time = 1) :=
  updated_at_spec ⟨1, 0, 5, Encoding.Bytes []⟩ 7

/-- C10: delbytes on a key absent from the store inserts a Bytes object
with empty value whose create_time and delete_time both end up equal to
uuid; alive compares create_time ≥ delete_time, so the object is alive
and a subsequent get returns the empty value instead of Nil. -/
theorem delbytes_on_missing_key_alive (server : Server) (key : Bytes) (nodeid uuid : Nat)
    (h : db_query server.db key = none) :
    ∃ o, db_query (delbytes_command server nodeid uuid [Message.BulkString key]).2.db key
        = some o ∧
      o.create_time = uuid ∧ o.delete_time = uuid ∧ o.enc = Encoding.Bytes [] ∧
      o.alive = true ∧
      (get_command (delbytes_command server nodeid uuid [Message.BulkString key]).2
        nodeid uuid [Message.BulkString key]).1 = Except.ok (Message.BulkString []) := by
  refine ⟨⟨uuid, max 0 uuid, max 0 uuid, Encoding.Bytes []⟩, ?_⟩
  simp [delbytes_command, next_bytes, next_arg, h, db_query_add, Object.new,
        get_command, Object.alive]

/-- C10 witness: delbytes at uuid 4 on an empty store. -/
theorem delbytes_on_missing_key_alive_witness :
    ∃ o, db_query (delbytes_command ⟨[], [], 0, 1, 0⟩ 1 4 [Message.BulkString [107]]).2.db [107]
        = some o ∧
      o.create_time = 4 ∧ o.delete_time = 4 ∧ o.enc = Encoding.Bytes [] ∧
      o.alive = true ∧
      (get_command (delbytes_command ⟨[], [], 0, 1, 0⟩ 1 4 [Message.BulkString [107]]).2
        1 4 [Message.BulkString [107]]).1 = Except.ok (Message.BulkString []) :=
  delbytes_on_missing_key_alive ⟨[], [], 0, 1, 0⟩ [107] 1 4 rfl

/-- C7 counterexample: on a store holding an alive Counter object, get
succeeds with an Integer reply, which is neither a BulkString nor Nil,
so the claimed reply shape is wrong. -/
theorem get_returns_integer_for_counter :
    (get_command ⟨[([107], ⟨1, 3, 0, Encoding.Counter ⟨[(1, 7, 3)]⟩⟩)], [], 0, 1, 0⟩
        1 5 [Message.BulkString [107]]).1 = Except.ok (Message.Integer 7) ∧
    message_is_bulkstring_or_nil (Message.Integer 7) = false :=
  ⟨rfl, rfl⟩

/-- C7 amended: a successful get returns a BulkString, an Integer (for a
Counter object) or Nil; and it returns Nil whenever the queried key is
absent from the store or its object is tombstoned
(create_time < delete_time). -/
theorem get_reply_shape (server : Server) (nodeid uuid : Nat) (args : List Message)
    (r : Message) (s1 : Server)
    (h : get_command server nodeid uuid args = (Except.ok r, s1)) :
    ((∃ b, r = Message.BulkString b) ∨ (∃ i, r = Message.Integer i) ∨ r = Message.Nil) ∧
    (∀ key rest, next_bytes args = Except.ok (key, rest) →
      (db_query server.db key = none → r = Message.Nil) ∧
      (∀ o, db_query server.db key = some o → o.create_time < o.delete_time →
        r = Message.Nil)) := by
  rcases hnb : next_bytes args with e | p
  · simp only [get_command, hnb] at h
    simp at h
  · obtain ⟨key, rest⟩ := p
    simp only [get_command, hnb] at h
    constructor
    · rcases hq : db_query server.db key with _ | o <;> simp only [hq] at h
      · simp at h
        exact Or.inr (Or.inr h.1.symm)
      · split at h
        · simp at h
          exact Or.inr (Or.inr h.1.symm)
        · rcases he : o.enc with g | b | s | d <;> simp only [he] at h <;> simp at h
          · exact Or.inr (Or.inl ⟨_, h.1.symm⟩)
          · exact Or.inl ⟨_, h.1.symm⟩
    · intro key2 rest2 hnb2
      simp at hnb2
      obtain ⟨hk, -⟩ := hnb2
      subst hk
      constructor
      · intro hq
        simp only [hq] at h
        simp at h
        exact h.1.symm
      · intro o hq htomb
        simp only [hq, if_pos htomb] at h
        simp at h
        exact h.1.symm

/-- C7 witness: get on an empty store returns Nil. -/
theorem get_reply_shape_witness :
    ((∃ b, Message.Nil = Message.BulkString b) ∨
      (∃ i, Message.Nil = Message.Integer i) ∨ Message.Nil = Message.Nil) ∧
    (∀ key rest, next_bytes [Message.BulkString [107]] = Except.ok (key, rest) →
      (db_query (⟨[], [], 0, 1, 0⟩ : Server).db key = none → Message.Nil = Message.Nil) ∧
      (∀ o, db_query (⟨[], [], 0, 1, 0⟩ : Server).db key = some o →
        o.create_time < o.delete_time → Message.Nil = Message.Nil)) :=
  get_reply_shape ⟨[], [], 0, 1, 0⟩ 1 5 [Message.BulkString [107]] Message.Nil
    ⟨[], [], 0, 1, 0⟩ rfl

/-- C6 counterexample: an existing key whose object has update_time 5 is
overwritten by a set carrying uuid 5, although 5 does not exceed 5; the
claimed strict-inequality condition is wrong. -/
theorem set_effect_at_equal_uuid :
    ¬ ((5 : Nat) > 5) ∧
    (set_command ⟨[([107], ⟨1, 5, 0, Encoding.Bytes [120]⟩)], [], 0, 1, 0⟩ 1 5
        [Message.BulkString [107], Message.BulkString [121]]).2.db =
      [([107], ⟨1, 5, 0, Encoding.Bytes [121]⟩)] :=
  ⟨by decide, rfl⟩

/-- C6 amended: on an existing key, set takes effect only when
uuid ≥ update_time of the enclosing object: when update_time > uuid the
store is unchanged and the reply is Integer 0, and when update_time ≤
uuid (and the object is a Bytes object) the value is replaced and
update_time becomes uuid. -/
theorem set_honoured_iff_uuid_ge (server : Server) (nodeid uuid : Nat)
    (key value : Bytes) (o : Object)
    (h : db_query server.db key = some o) :
    (o.update_time > uuid →
      set_command server nodeid uuid [Message.BulkString key, Message.BulkString value] =
        (Except.ok (Message.Integer 0), server)) ∧
    (o.update_time ≤ uuid → ∀ b, o.enc = Encoding.Bytes b →
      ∃ o1,
        (set_command server nodeid uuid
            [Message.BulkString key, Message.BulkString value]).2.db =
          db_add server.db key o1 ∧
        o1.enc = Encoding.Bytes value ∧ o1.update_time = uuid ∧
        (set_command server nodeid uuid
            [Message.BulkString key, Message.BulkString value]).1 =
          Except.ok new_msg_ok) := by
  constructor
  · intro hgt
    simp [set_command, next_bytes, next_arg, h, if_pos hgt]
  · intro hle b henc
    have hnle : ¬ (o.update_time > uuid) := not_lt.mpr hle
    have henc2 : (Object.updated_at { o with enc := Encoding.Bytes value } uuid).enc
        = Encoding.Bytes value := by
      rw [updated_at_enc]
    have hut : (Object.updated_at { o with enc := Encoding.Bytes value } uuid).update_time
        = uuid := by
      rw [updated_at_update_time]
      simpa using hle
    exact ⟨Object.updated_at { o with enc := Encoding.Bytes value } uuid,
      by simp [set_command, next_bytes, next_arg, h, hnle, henc],
      henc2, hut,
      by simp [set_command, next_bytes, next_arg, h, hnle, henc]⟩

/-- C6 witness: a set at a strictly larger uuid replaces the value. -/
theorem set_honoured_iff_uuid_ge_witness :
    ((⟨1, 2, 0, Encoding.Bytes [120]⟩ : Object).update_time > 5 →
      set_command ⟨[([107], ⟨1, 2, 0, Encoding.Bytes [120]⟩)], [], 0, 1, 0⟩ 1 5
          [Message.BulkString [107], Message.BulkString [121]] =
        (Except.ok (Message.Integer 0),
          ⟨[([107], ⟨1, 2, 0, Encoding.Bytes [120]⟩)], [], 0, 1, 0⟩)) ∧
    ((⟨1, 2, 0, Encoding.Bytes [120]⟩ : Object).update_time ≤ 5 →
      ∀ b, (⟨1, 2, 0, Encoding.Bytes [120]⟩ : Object).enc = Encoding.Bytes b →
      ∃ o1,
        (set_command ⟨[([107], ⟨1, 2, 0, Encoding.Bytes [120]⟩)], [], 0, 1, 0⟩ 1 5
            [Message.BulkString [107], Message.BulkString [121]]).2.db =
          db_add [([107], ⟨1, 2, 0, Encoding.Bytes [120]⟩)] [107] o1 ∧
        o1.enc = Encoding.Bytes [121] ∧ o1.update_time = 5 ∧
        (set_command ⟨[([107], ⟨1, 2, 0, Encoding.Bytes [120]⟩)], [], 0, 1, 0⟩ 1 5
            [Message.BulkString [107], Message.BulkString [121]]).1 =
          Except.ok new_msg_ok) :=
  set_honoured_iff_uuid_ge ⟨[([107], ⟨1, 2, 0, Encoding.Bytes [120]⟩)], [], 0, 1, 0⟩
    1 5 [107] [121] ⟨1, 2, 0, Encoding.Bytes [120]⟩ rfl

/-- C1 counterexample: merging two Counter objects leaves the receiving
delete_time of the receiving object at 1 instead of the claimed pairwise max 2; the
Counter (and LWWSet/LWWDict) arms of Object::merge do not touch the
envelope timestamps. -/
theorem merge_counter_keeps_envelope :
    (Object.merge ⟨1, 1, 1, Encoding.Counter ⟨[]⟩⟩ ⟨2, 2, 2, Encoding.Counter ⟨[]⟩⟩).map
        Object.delete_time ≠ some (max 1 2) := by
  decide

/-- C1 amended: Object::merge defers to the CRDT merge of the variant for all
four variants, but it updates the envelope timestamps to the pairwise
maxima only in the Bytes arm; in the Counter, LWWSet and LWWDict arms
the create_time, delete_time and update_time of the receiving object are left
unchanged. -/
theorem merge_envelope_timestamps (a b m : Object) (h : Object.merge a b = some m) :
    ((∃ va vb, a.enc = Encoding.Bytes va ∧ b.enc = Encoding.Bytes vb) →
      m.create_time = max a.create_time b.create_time ∧
      m.delete_time = max a.delete_time b.delete_time ∧
      m.update_time = max a.update_time b.update_time) ∧
    ((∀ v, a.enc ≠ Encoding.Bytes v) →
      m.create_time = a.create_time ∧
      m.delete_time = a.delete_time ∧
      m.update_time = a.update_time) := by
  obtain ⟨act, aut, adt, ae⟩ := a
  obtain ⟨bct, but, bdt, be⟩ := b
  cases ae <;> cases be <;> simp [Object.merge] at h <;>
    obtain ⟨h1, h2, h3, h4⟩ := h <;> constructor <;> simp_all

/-- C1 witness: a Bytes-Bytes merge really takes the pairwise maxima. -/
theorem merge_envelope_timestamps_witness :
    ((∃ va vb, (⟨1, 2, 3, Encoding.Bytes [120]⟩ : Object).enc = Encoding.Bytes va ∧
        (⟨6, 5, 4, Encoding.Bytes [121]⟩ : Object).enc = Encoding.Bytes vb) →
      (⟨6, 5, 4, Encoding.Bytes [121]⟩ : Object).create_time = max 1 6 ∧
      (⟨6, 5, 4, Encoding.Bytes [121]⟩ : Object).delete_time = max 3 4 ∧
      (⟨6, 5, 4, Encoding.Bytes [121]⟩ : Object).update_time = max 2 5) ∧
    ((∀ v, (⟨1, 2, 3, Encoding.Bytes [120]⟩ : Object).enc ≠ Encoding.Bytes v) →
      (⟨6, 5, 4, Encoding.Bytes [121]⟩ : Object).create_time = 1 ∧
      (⟨6, 5, 4, Encoding.Bytes [121]⟩ : Object).delete_time = 3 ∧
      (⟨6, 5, 4, Encoding.Bytes [121]⟩ : Object).update_time = 2) :=
  merge_envelope_timestamps ⟨1, 2, 3, Encoding.Bytes [120]⟩ ⟨6, 5, 4, Encoding.Bytes [121]⟩
    ⟨6, 5, 4, Encoding.Bytes [121]⟩ (by decide)

/-- C2 counterexample: two Bytes objects with equal create_time and
different values merge differently in the two orders, so Object::merge is
not commutative as claimed. -/
theorem merge_not_commutative_on_tie :
    Object.merge ⟨1, 0, 0, Encoding.Bytes [120]⟩ ⟨1, 0, 0, Encoding.Bytes [121]⟩ ≠
      Object.merge ⟨1, 0, 0, Encoding.Bytes [121]⟩ ⟨1, 0, 0, Encoding.Bytes [120]⟩ := by
  decide

/-- C2 amended: for Bytes-variant objects Object::merge is idempotent
(merge(a, a) = a), and it is commutative and associative whenever the
create_times involved are pairwise distinct; a tie in create_time makes
the surviving value depend on the argument order, and the non-Bytes arms
do not combine envelope timestamps at all, so the unrestricted law
fails. -/
theorem merge_bytes_idem_comm_assoc (a b c : Object) (va vb vc : Bytes)
    (ha : a.enc = Encoding.Bytes va) (hb : b.enc = Encoding.Bytes vb)
    (hc : c.enc = Encoding.Bytes vc)
    (hab : a.create_time ≠ b.create_time) (hac : a.create_time ≠ c.create_time)
    (hbc : b.create_time ≠ c.create_time) :
    Object.merge a a = some a ∧
    Object.merge a b = Object.merge b a ∧
    (Object.merge a b).bind (fun m => Object.merge m c) =
      (Object.merge b c).bind (fun m => Object.merge a m) := by
  obtain ⟨act, aut, adt, ae⟩ := a
  obtain ⟨bct, but, bdt, be⟩ := b
  obtain ⟨cct, cut, cdt, ce⟩ := c
  simp only at ha hb hc hab hac hbc
  subst ha hb hc
  refine ⟨?_, ?_, ?_⟩
  · simp [Object.merge]
  · simp only [Object.merge, Option.some.injEq, Object.mk.injEq]
    refine ⟨Nat.max_comm .., Nat.max_comm .., Nat.max_comm .., ?_⟩
    split_ifs <;> first | rfl | (simp only [Encoding.Bytes.injEq]; omega)
  · simp only [Object.merge, Option.bind_some, Option.some_bind, Option.some.injEq,
      Object.mk.injEq]
    refine ⟨?_, ?_, ?_, ?_⟩
    · exact Nat.max_assoc ..
    · exact Nat.max_assoc ..
    · exact Nat.max_assoc ..
    · split_ifs <;> first | rfl | (simp only [Encoding.Bytes.injEq]; omega)

/-- C2 witness: three concrete Bytes objects with distinct create_times. -/
theorem merge_bytes_idem_comm_assoc_witness :
    Object.merge ⟨1, 0, 0, Encoding.Bytes [120]⟩ ⟨1, 0, 0, Encoding.Bytes [120]⟩ =
      some ⟨1, 0, 0, Encoding.Bytes [120]⟩ ∧
    Object.merge ⟨1, 0, 0, Encoding.Bytes [120]⟩ ⟨2, 0, 0, Encoding.Bytes [121]⟩ =
      Object.merge ⟨2, 0, 0, Encoding.Bytes [121]⟩ ⟨1, 0, 0, Encoding.Bytes [120]⟩ ∧
    (Object.merge ⟨1, 0, 0, Encoding.Bytes [120]⟩ ⟨2, 0, 0, Encoding.Bytes [121]⟩).bind
        (fun m => Object.merge m ⟨3, 0, 0, Encoding.Bytes [122]⟩) =
      (Object.merge ⟨2, 0, 0, Encoding.Bytes [121]⟩ ⟨3, 0, 0, Encoding.Bytes [122]⟩).bind
        (fun m => Object.merge ⟨1, 0, 0, Encoding.Bytes [120]⟩ m) :=
  merge_bytes_idem_comm_assoc ⟨1, 0, 0, Encoding.Bytes [120]⟩ ⟨2, 0, 0, Encoding.Bytes [121]⟩
    ⟨3, 0, 0, Encoding.Bytes [122]⟩ [120] [121] [122] rfl rfl rfl
    (by decide) (by decide) (by decide)

/-- C5: a user del on an existing Counter or Bytes object is refused with
Integer 0 and no state change at all when the update_time of the object
exceeds the uuid of the del; otherwise, when the object is alive, it is
tombstoned with delete_time and update_time both set to uuid and the
reply is Integer 1. -/
theorem del_counter_bytes_policy (server : Server) (nodeid uuid : Nat) (key : Bytes)
    (v : Object) (hq : db_query server.db key = some v)
    (henc : (∃ g, v.enc = Encoding.Counter g) ∨ (∃ b, v.enc = Encoding.Bytes b)) :
    (v.update_time > uuid →
      del_command server nodeid uuid [Message.BulkString key] =
        (Except.ok (Message.Integer 0), server)) ∧
    (v.update_time ≤ uuid → v.delete_time ≤ v.create_time →
      (del_command server nodeid uuid [Message.BulkString key]).1 =
        Except.ok (Message.Integer 1) ∧
      ∃ v1, db_query (del_command server nodeid uuid [Message.BulkString key]).2.db key
          = some v1 ∧ v1.delete_time = uuid ∧ v1.update_time = uuid) := by
  rcases henc with ⟨g, henc⟩ | ⟨b, henc⟩
  · constructor
    · intro hgt
      have hnle : ¬ (v.update_time ≤ uuid) := not_le.mpr hgt
      simp [del_command, next_bytes, next_arg, hq, henc, hnle]
    · intro hle hal
      have hntomb : ¬ (v.create_time < v.delete_time) := not_lt.mpr hal
      constructor
      · simp [del_command, next_bytes, next_arg, hq, henc, hle, hntomb]
      · simp only [del_command, next_bytes, next_arg, hq, henc, if_pos hle,
          if_neg hntomb, Server.replicate_cmd]
        exact ⟨_, db_query_add .., rfl, rfl⟩
  · constructor
    · intro hgt
      have hnle : ¬ (v.update_time ≤ uuid) := not_le.mpr hgt
      simp [del_command, next_bytes, next_arg, hq, henc, hnle]
    · intro hle hal
      have hntomb : ¬ (v.create_time < v.delete_time) := not_lt.mpr hal
      constructor
      · simp [del_command, next_bytes, next_arg, hq, henc, hle, hntomb]
      · simp only [del_command, next_bytes, next_arg, hq, henc, if_pos hle,
          if_neg hntomb, Server.replicate_cmd]
        exact ⟨_, db_query_add .., rfl, rfl⟩

/-- C5 witness: del at uuid 9 tombstones an alive Bytes object. -/
theorem del_counter_bytes_policy_witness :
    ((⟨3, 3, 0, Encoding.Bytes [120]⟩ : Object).update_time > 9 →
      del_command ⟨[([107], ⟨3, 3, 0, Encoding.Bytes [120]⟩)], [], 0, 1, 0⟩ 1 9
          [Message.BulkString [107]] =
        (Except.ok (Message.Integer 0),
          ⟨[([107], ⟨3, 3, 0, Encoding.Bytes [120]⟩)], [], 0, 1, 0⟩)) ∧
    ((⟨3, 3, 0, Encoding.Bytes [120]⟩ : Object).update_time ≤ 9 →
      (⟨3, 3, 0, Encoding.Bytes [120]⟩ : Object).delete_time ≤
        (⟨3, 3, 0, Encoding.Bytes [120]⟩ : Object).create_time →
      (del_command ⟨[([107], ⟨3, 3, 0, Encoding.Bytes [120]⟩)], [], 0, 1, 0⟩ 1 9
          [Message.BulkString [107]]).1 = Except.ok (Message.Integer 1) ∧
      ∃ v1, db_query (del_command ⟨[([107], ⟨3, 3, 0, Encoding.Bytes [120]⟩)], [], 0, 1, 0⟩
            1 9 [Message.BulkString [107]]).2.db [107] = some v1 ∧
        v1.delete_time = 9 ∧ v1.update_time = 9) :=
  del_counter_bytes_policy ⟨[([107], ⟨3, 3, 0, Encoding.Bytes [120]⟩)], [], 0, 1, 0⟩ 1 9
    [107] ⟨3, 3, 0, Encoding.Bytes [120]⟩ rfl (Or.inr ⟨[120], rfl⟩)

/-- C8: a command whose flags contain REPL_ONLY is refused by the
client-facing exec path with UnknownCmd before its handler runs, leaving
the key store and the replication log unchanged; and the COMMANDS table
gives delbytes, delcnt, delset and deldict the REPL_ONLY flag. -/
theorem repl_only_refused_from_client (c : Cmd) (server : Server)
    (h : c.command.flags &&& COMMAND_REPL_ONLY > 0) :
    (Cmd.exec c server).1 = Except.error (CstError.UnknownCmd c.command.name) ∧
    (Cmd.exec c server).2.db = server.db ∧
    (Cmd.exec c server).2.repl_log = server.repl_log ∧
    (∀ name, name ∈ ["delbytes", "delcnt", "delset", "deldict"] →
      ∃ flags, COMMANDS_flags name = some flags ∧ flags &&& COMMAND_REPL_ONLY > 0) := by
  refine ⟨?_, ?_, ?_, ?_⟩
  · simp [Cmd.exec, h]
  · simp [Cmd.exec, h]
  · simp [Cmd.exec, h]
  · intro name hname
    simp only [List.mem_cons, List.not_mem_nil, or_false] at hname
    rcases hname with h1 | h1 | h1 | h1 <;> subst h1 <;>
      exact ⟨COMMAND_WRITE ||| COMMAND_REPL_ONLY, rfl, by decide⟩

/-- C8 witness: a direct delbytes is refused on a concrete server. -/
theorem repl_only_refused_from_client_witness :
    (Cmd.exec ⟨[Message.BulkString [107]],
        ⟨"delbytes", COMMAND_WRITE ||| COMMAND_REPL_ONLY, delbytes_command⟩⟩
      ⟨[], [], 0, 1, 0⟩).1 = Except.error (CstError.UnknownCmd "delbytes") ∧
    (Cmd.exec ⟨[Message.BulkString [107]],
        ⟨"delbytes", COMMAND_WRITE ||| COMMAND_REPL_ONLY, delbytes_command⟩⟩
      ⟨[], [], 0, 1, 0⟩).2.db = ([] : List (Bytes × Object)) ∧
    (Cmd.exec ⟨[Message.BulkString [107]],
        ⟨"delbytes", COMMAND_WRITE ||| COMMAND_REPL_ONLY, delbytes_command⟩⟩
      ⟨[], [], 0, 1, 0⟩).2.repl_log = ([] : List (Nat × String × List Message)) ∧
    (∀ name, name ∈ ["delbytes", "delcnt", "delset", "deldict"] →
      ∃ flags, COMMANDS_flags name = some flags ∧ flags &&& COMMAND_REPL_ONLY > 0) :=
  repl_only_refused_from_client
    ⟨[Message.BulkString [107]],
      ⟨"delbytes", COMMAND_WRITE ||| COMMAND_REPL_ONLY, delbytes_command⟩⟩
    ⟨[], [], 0, 1, 0⟩ (by decide)

/-- C3: on the client-facing exec path of a non-REPL_ONLY command, the
engine-level replication record (uuid, name, args) is appended to the
replication log exactly when the handler returned success and the flags
contain WRITE but not NO_REPLICATE; the reply of the handler is passed
through unchanged. -/
theorem exec_replicates_iff_success_write (c : Cmd) (server : Server)
    (hnro : c.command.flags &&& COMMAND_REPL_ONLY = 0) :
    (Cmd.exec c server).1 =
      (c.command.handler
        { server with cmd_processed := server.cmd_processed + 1, next_id := server.next_id + 1 }
        server.node_id (server.next_id + 1) c.args).1 ∧
    (Cmd.exec c server).2.repl_log =
      (if is_err (c.command.handler
            { server with cmd_processed := server.cmd_processed + 1,
                          next_id := server.next_id + 1 }
            server.node_id (server.next_id + 1) c.args).1 = false ∧
          c.command.flags &&& COMMAND_WRITE > 0 ∧
          c.command.flags &&& COMMAND_NO_REPLICATE = 0
       then (server.next_id + 1, c.command.name, c.args) ::
         (c.command.handler
            { server with cmd_processed := server.cmd_processed + 1,
                          next_id := server.next_id + 1 }
            server.node_id (server.next_id + 1) c.args).2.repl_log
       else (c.command.handler
            { server with cmd_processed := server.cmd_processed + 1,
                          next_id := server.next_id + 1 }
            server.node_id (server.next_id + 1) c.args).2.repl_log) := by
  have hif : ¬ (c.command.flags &&& COMMAND_REPL_ONLY > 0) := by omega
  constructor
  · simp [Cmd.exec, Cmd.exec_detail, hif, Server.next_uuid]
  · simp only [Cmd.exec, Cmd.exec_detail, hif, if_false, Server.next_uuid,
      Server.replicate_cmd]
    by_cases h1 : is_err (c.command.handler
        { server with cmd_processed := server.cmd_processed + 1,
                      next_id := server.next_id + 1 }
        server.node_id (server.next_id + 1) c.args).1 = false <;>
      by_cases h2 : c.command.flags &&& COMMAND_WRITE > 0 <;>
      by_cases h3 : c.command.flags &&& COMMAND_NO_REPLICATE = 0 <;>
      simp_all

/-- C3 witness: a concrete set command appends its record after success. -/
theorem exec_replicates_iff_success_write_witness :
    (Cmd.exec ⟨[Message.BulkString [107], Message.BulkString [120]],
        ⟨"set", COMMAND_WRITE, set_command⟩⟩ ⟨[], [], 0, 1, 0⟩).1 =
      (set_command ⟨[], [], 1, 1, 1⟩ 1 1
        [Message.BulkString [107], Message.BulkString [120]]).1 ∧
    (Cmd.exec ⟨[Message.BulkString [107], Message.BulkString [120]],
        ⟨"set", COMMAND_WRITE, set_command⟩⟩ ⟨[], [], 0, 1, 0⟩).2.repl_log =
      (if is_err (set_command ⟨[], [], 1, 1, 1⟩ 1 1
            [Message.BulkString [107], Message.BulkString [120]]).1 = false ∧
          COMMAND_WRITE &&& COMMAND_WRITE > 0 ∧
          COMMAND_WRITE &&& COMMAND_NO_REPLICATE = 0
       then (1, "set", [Message.BulkString [107], Message.BulkString [120]]) ::
         (set_command ⟨[], [], 1, 1, 1⟩ 1 1
            [Message.BulkString [107], Message.BulkString [120]]).2.repl_log
       else (set_command ⟨[], [], 1, 1, 1⟩ 1 1
            [Message.BulkString [107], Message.BulkString [120]]).2.repl_log) :=
  exec_replicates_iff_success_write
    ⟨[Message.BulkString [107], Message.BulkString [120]],
      ⟨"set", COMMAND_WRITE, set_command⟩⟩ ⟨[], [], 0, 1, 0⟩ (by decide)

end ConstDB
